import Mathlib

/-
Verification of the incident-manager WebSocket subscription client.

Part 1 embeds the example client `src/examples/websocket/python-client.py`
directly: the `IncidentMonitor` object, its stop flag, the shape of each
subscription loop, the try/except wrapper around each subscription
session, and `main`'s use of `asyncio.gather` with `return_exceptions=True`.

Part 2 models the subscription multiplexing and connection-lifecycle
engine that the specification describes (registry, generations, active
subscriptions, dispatcher queues, backoff states).  That engine is not
part of `src/` — the specification states that the example source is
"illustrative glue, not this engine" — so part 2 is modelled from the
specification's own words, and theorems about it are marked accordingly.
-/

/-! ## Part 1: shallow embedding of `python-client.py` -/

/-- Embeds the `gql.transport.websockets.WebsocketsTransport` value constructed
in `IncidentMonitor.__init__` (src lines 38-42): the WebSocket url, the
connection-init payload carrying the bearer token, and the subprotocol list.
The transport itself is an external library object; only the constructed
configuration is relevant here. -/
structure WebsocketsTransport where
  url : String
  init_payload : List (String × String)
  subprotocols : List String
deriving DecidableEq

/-- Embeds the `gql.Client` value constructed in `IncidentMonitor.__init__`
(src lines 43-46): it wraps the transport and disables schema fetching. -/
structure GqlClient where
  transport : WebsocketsTransport
  fetch_schema_from_transport : Bool
deriving DecidableEq

/-- Embeds the `IncidentMonitor` object (src lines 27-47): one transport, one
client built over that same transport, and the `running` flag. -/
structure IncidentMonitor where
  transport : WebsocketsTransport
  client : GqlClient
  running : Bool
deriving DecidableEq

/-- Embeds `IncidentMonitor.__init__` (src lines 30-47): builds exactly one
transport and one client over it; `running` starts false. -/
def IncidentMonitor.mkMonitor (ws_url auth_token : String) : IncidentMonitor :=
  let t : WebsocketsTransport :=
    { url := ws_url
      init_payload := [("Authorization", "Bearer " ++ auth_token)]
      subprotocols := ["graphql-transport-ws"] }
  { transport := t
    client := { transport := t, fetch_schema_from_transport := false }
    running := false }

/-- Embeds `IncidentMonitor.stop` (src lines 171-174): it only clears the
`running` flag (the log call has no state effect). -/
def IncidentMonitor.stop (m : IncidentMonitor) : IncidentMonitor :=
  { m with running := false }

/-- Embeds the `async for` body shared by the three subscription loops
(src lines 77-83, 113-122, 158-167): each iteration awaits the next stream
item, passes it to the handler, and only then checks `self.running`,
breaking when it is false.  The input pairs each yielded event with the
value of the `running` flag at that post-delivery check (the flag may be
cleared concurrently by `stop`).  The result is the list of payloads that
reached the handler, together with whether the loop exited through the
flag check (as opposed to the stream simply ending). -/
def subscriptionLoop : List (Nat × Bool) → List Nat × Bool
  | [] => ([], false)
  | (p, run) :: rest =>
      if run then
        let r := subscriptionLoop rest
        (p :: r.1, r.2)
      else ([p], true)

/-- Embeds the try/except wrapper of `subscribe_to_critical_incidents`
(src lines 75-85): the whole session runs inside `try`; `except Exception`
logs the error and falls through, and the coroutine returns `None` either
way.  `Except.ok log` is a normal return carrying the error-log lines;
`Except.error` would be an exception propagating to the caller and is
never produced. -/
def subscribe_to_critical_incidents (session : Except String Unit) :
    Except String (List String) :=
  match session with
  | Except.ok _ => Except.ok []
  | Except.error e => Except.ok ["Critical incidents subscription error: " ++ e]

/-- Embeds the try/except wrapper of `subscribe_to_incident_updates`
(src lines 111-124), identical in shape to the critical-incidents one. -/
def subscribe_to_incident_updates (session : Except String Unit) :
    Except String (List String) :=
  match session with
  | Except.ok _ => Except.ok []
  | Except.error e => Except.ok ["Incident updates subscription error: " ++ e]

/-- Embeds the try/except wrapper of `subscribe_to_new_incidents`
(src lines 156-169), identical in shape to the critical-incidents one. -/
def subscribe_to_new_incidents (session : Except String Unit) :
    Except String (List String) :=
  match session with
  | Except.ok _ => Except.ok []
  | Except.error e => Except.ok ["New incidents subscription error: " ++ e]

/-- Embeds `asyncio.gather` as invoked in `main` (src lines 235-240): with
`return_exceptions` true every task runs to completion and its outcome is
collected into the result list, so one task's failure does not cancel the
others; with `return_exceptions` false the first raised exception
propagates out of `gather` and the remaining tasks are abandoned. -/
def gatherTasks (return_exceptions : Bool)
    (tasks : List (Except String (List String))) :
    Except String (List (Except String (List String))) :=
  if return_exceptions then Except.ok tasks
  else
    match tasks.find? (fun t => match t with
      | Except.error _ => true
      | Except.ok _ => false) with
    | some (Except.error e) => Except.error e
    | _ => Except.ok tasks

/-- Embeds the `asyncio.gather(...)` call in `main` (src lines 234-240): the
three subscription coroutines of the single monitor, gathered with
`return_exceptions=True`.  Each argument is the outcome of the
corresponding subscription session body. -/
def mainGather (s1 s2 s3 : Except String Unit) :
    Except String (List (Except String (List String))) :=
  gatherTasks true
    [subscribe_to_critical_incidents s1,
     subscribe_to_incident_updates s2,
     subscribe_to_new_incidents s3]

/-! ## Part 2: the multiplexing and connection-lifecycle engine

The definitions below carry `Modelled from the spec:` doc comments: the
engine they describe (spec sections 2-5) is repository code that is not
under `src/`; the example client is only its consumer. -/

/-- Modelled from the spec: the Connection Lifecycle Manager's state machine
states (spec section 4.2), for the engine that is absent from `src/`. -/
inductive ConnState
  | Idle
  | Connecting
  | Handshaking
  | Ready
  | Draining
  | BackoffWait
  | Closed
deriving DecidableEq

/-- Modelled from the spec: a `SubscriptionRequest` (spec section 3) —
consumer-declared intent with a stable client-assigned key, document text
and variables; the engine holding it is absent from `src/`. -/
structure SubscriptionRequest where
  key : Nat
  document : String
  vars : List (String × String)
deriving DecidableEq

/-- Modelled from the spec: an `ActiveSubscription` (spec section 3) — the
server-acknowledged instance of a request on the current connection
generation, mapping the client key to the server-assigned subscription id;
part of the engine absent from `src/`. -/
structure ActiveSubscription where
  key : Nat
  serverId : Nat
  gen : Nat
deriving DecidableEq

/-- Modelled from the spec: the outbound protocol frames relevant to the
claims (spec sections 4.1 and 6); the Frame Codec is absent from `src/`.
`connectionInit` carries the credential used for the handshake;
`subscribe` records the server id and the client key it was issued for;
`unsubscribe` is the client-sent Complete frame. -/
inductive Frame
  | connectionInit (token : String)
  | subscribe (serverId : Nat) (key : Nat)
  | unsubscribe (serverId : Nat)
deriving DecidableEq

/-- Pointwise update of a key-indexed family of queues. -/
def updL (f : Nat → List Nat) (k : Nat) (v : List Nat) : Nat → List Nat :=
  fun k' => if k' = k then v else f k'

/-- Pointwise update of a key-indexed family of flags. -/
def updB (f : Nat → Bool) (k : Nat) (v : Bool) : Nat → Bool :=
  fun k' => if k' = k then v else f k'

/-- Modelled from the spec: the engine state (spec sections 2-5) — the
connection state machine with its generation counter, the Subscription
Registry, the current generation's ActiveSubscription map, the per-key
delivery queues of the Dispatcher, the per-key lists of payloads already
pulled by consumer handlers, queue-closed and subscription-error markers
per key, the log of assigned server ids with their generation, the
handshake-attempt counter, the number of open physical links, and the log
of outbound frames.  None of this engine is under `src/`. -/
@[ext]
structure Engine where
  conn : ConnState
  physLinks : Nat
  generation : Nat
  attempt : Nat
  registry : List SubscriptionRequest
  active : List ActiveSubscription
  nextServerId : Nat
  idGen : List (Nat × Nat)
  queues : Nat → List Nat
  delivered : Nat → List Nat
  closedQ : Nat → Bool
  subError : Nat → Bool
  sent : List Frame

/-- Modelled from the spec: the external events and internal transitions
that drive the engine (spec sections 4.2-4.5): connection attempts and
their outcomes, handshake acknowledgement or failure, transport failure
and drain completion, inbound Next/Error/Complete frames tagged with a
server subscription id, consumer-side add/cancel of requests, a handler
pulling one event from its delivery queue, and shutdown. -/
inductive Ev
  | connect
  | openOk
  | openFail
  | ack
  | handshakeFail
  | transportFail
  | drained
  | inbound (sid : Nat) (payload : Nat)
  | errFrame (sid : Nat)
  | completeFrame (sid : Nat)
  | addReq (r : SubscriptionRequest)
  | cancel (k : Nat)
  | pull (k : Nat)
  | shutdown
deriving DecidableEq

/-- Modelled from the spec: the Dispatcher's routing of an inbound frame
(spec section 4.4) — resolve the server subscription id through the
current generation's ActiveSubscription map, refusing delivery when the
connection is not Ready or the target delivery queue is closed. -/
def inboundTarget (s : Engine) (sid : Nat) : Option Nat :=
  if s.conn = ConnState.Ready then
    match s.active.find? (fun a => a.serverId == sid) with
    | some a => if s.closedQ a.key then none else some a.key
    | none => none
  else none

/-- Modelled from the spec: the re-subscription replay performed on a
successful handshake (spec section 4.2, Handshaking) — every registry
entry, in registry insertion order, gets a fresh server id for generation
`g` starting at `n`, producing the new ActiveSubscription entries and the
Subscribe frames sent for them. -/
def replay (g : Nat) : Nat → List SubscriptionRequest →
    List ActiveSubscription × List Frame
  | _, [] => ([], [])
  | n, r :: rs =>
      let p := replay g (n + 1) rs
      (⟨r.key, n, g⟩ :: p.1, Frame.subscribe n r.key :: p.2)

/-- Modelled from the spec: one step of the engine (spec sections 4.2-4.5).
`tok` is the Credential Provider (spec section 6): `tok n` is the token
current at handshake attempt `n`, consulted when the handshake of that
attempt sends ConnectionInit.  Events that are not legal in the current
connection state leave the state unchanged. -/
def step (tok : Nat → String) (s : Engine) (e : Ev) : Engine :=
  match e with
  | Ev.connect =>
      if s.conn = ConnState.Idle ∨ s.conn = ConnState.BackoffWait then
        { s with conn := ConnState.Connecting }
      else s
  | Ev.openOk =>
      if s.conn = ConnState.Connecting then
        { s with conn := ConnState.Handshaking
                 physLinks := 1
                 attempt := s.attempt + 1
                 sent := s.sent ++ [Frame.connectionInit (tok (s.attempt + 1))] }
      else s
  | Ev.openFail =>
      if s.conn = ConnState.Connecting then
        { s with conn := ConnState.BackoffWait, physLinks := 0 }
      else s
  | Ev.ack =>
      if s.conn = ConnState.Handshaking then
        let g := s.generation + 1
        let rp := replay g s.nextServerId s.registry
        { s with conn := ConnState.Ready
                 generation := g
                 active := rp.1
                 idGen := s.idGen ++ rp.1.map (fun a => (a.serverId, a.gen))
                 nextServerId := s.nextServerId + s.registry.length
                 sent := s.sent ++ rp.2 }
      else s
  | Ev.handshakeFail =>
      if s.conn = ConnState.Handshaking then
        { s with conn := ConnState.BackoffWait, physLinks := 0 }
      else s
  | Ev.transportFail =>
      if s.conn = ConnState.Ready then { s with conn := ConnState.Draining }
      else s
  | Ev.drained =>
      if s.conn = ConnState.Draining then
        { s with conn := ConnState.BackoffWait, physLinks := 0, active := [] }
      else s
  | Ev.inbound sid p =>
      match inboundTarget s sid with
      | some k => { s with queues := updL s.queues k (s.queues k ++ [p]) }
      | none => s
  | Ev.errFrame sid =>
      if s.conn = ConnState.Ready then
        match s.active.find? (fun a => a.serverId == sid) with
        | some a =>
            { s with active := s.active.filter (fun b => b.serverId != sid)
                     closedQ := updB s.closedQ a.key true
                     subError := updB s.subError a.key true }
        | none => s
      else s
  | Ev.completeFrame sid =>
      if s.conn = ConnState.Ready then
        match s.active.find? (fun a => a.serverId == sid) with
        | some a =>
            { s with active := s.active.filter (fun b => b.serverId != sid)
                     closedQ := updB s.closedQ a.key true }
        | none => s
      else s
  | Ev.addReq r =>
      if s.registry.any (fun q => q.key == r.key) then s
      else
        let s1 := { s with registry := s.registry ++ [r]
                           queues := updL s.queues r.key []
                           delivered := updL s.delivered r.key []
                           closedQ := updB s.closedQ r.key false
                           subError := updB s.subError r.key false }
        if s.conn = ConnState.Ready then
          { s1 with active := s1.active ++ [⟨r.key, s.nextServerId, s.generation⟩]
                    idGen := s1.idGen ++ [(s.nextServerId, s.generation)]
                    nextServerId := s.nextServerId + 1
                    sent := s1.sent ++ [Frame.subscribe s.nextServerId r.key] }
        else s1
  | Ev.cancel k =>
      let s1 := { s with registry := s.registry.filter (fun r => r.key != k)
                         closedQ := updB s.closedQ k true }
      match s.active.find? (fun a => a.key == k) with
      | some a =>
          { s1 with active := s1.active.filter (fun b => b.key != k)
                    sent := s1.sent ++ [Frame.unsubscribe a.serverId] }
      | none => s1
  | Ev.pull k =>
      match s.queues k with
      | [] => s
      | p :: rest =>
          { s with queues := updL s.queues k rest
                   delivered := updL s.delivered k (s.delivered k ++ [p]) }
  | Ev.shutdown =>
      { s with conn := ConnState.Closed
               physLinks := 0
               active := []
               closedQ := fun _ => true }

/-- Modelled from the spec: the engine's starting state — Idle, no physical
link, generation zero, empty registry, empty queues. -/
def initState : Engine :=
  { conn := ConnState.Idle
    physLinks := 0
    generation := 0
    attempt := 0
    registry := []
    active := []
    nextServerId := 0
    idGen := []
    queues := fun _ => []
    delivered := fun _ => []
    closedQ := fun _ => false
    subError := fun _ => false
    sent := [] }

/-- Run the engine over a list of events. -/
def run (tok : Nat → String) (s : Engine) (es : List Ev) : Engine :=
  es.foldl (step tok) s

/-- Whether a frame is a ConnectionInit (handshake) frame. -/
def isInitFrame : Frame → Bool
  | Frame.connectionInit _ => true
  | _ => false

/-- Number of ConnectionInit frames in an outbound log. -/
def countInit (l : List Frame) : Nat := (l.filter isInitFrame).length

/-- Whether an event belongs to the dispatch/consumption schedule: an
inbound frame routed by the Dispatcher or a handler pulling from its
delivery queue. -/
def isDispatchEv : Ev → Bool
  | Ev.inbound _ _ => true
  | Ev.pull _ => true
  | _ => false

/-- The payloads routed to key `k`'s delivery queue while running the given
events, in routing order: the server-emission order as observed by the
Dispatcher for that key. -/
def routedTo (tok : Nat → String) (s : Engine) (k : Nat) : List Ev → List Nat
  | [] => []
  | e :: es =>
      (match e with
       | Ev.inbound sid p => if inboundTarget s sid = some k then [p] else []
       | _ => []) ++ routedTo tok (step tok s e) k es

/-- Concrete credential provider used by witnesses: token "T" then "U". -/
def tok0 : Nat → String := fun n => if n ≤ 1 then "T" else "U"

/-- Concrete subscription request with key 1. -/
def req1 : SubscriptionRequest := ⟨1, "criticalIncidents", []⟩

/-- Concrete subscription request with key 2. -/
def req2 : SubscriptionRequest := ⟨2, "incidentUpdates", [("severities", "P0,P1")]⟩

/-! ### Basic lemmas about the engine -/

theorem run_nil (tok : Nat → String) (s : Engine) : run tok s [] = s := rfl

theorem run_cons (tok : Nat → String) (s : Engine) (e : Ev) (es : List Ev) :
    run tok s (e :: es) = run tok (step tok s e) es := rfl

theorem run_append (tok : Nat → String) (s : Engine) (es1 es2 : List Ev) :
    run tok s (es1 ++ es2) = run tok (run tok s es1) es2 := by
  simp [run, List.foldl_append]

theorem updL_self (f : Nat → List Nat) (k : Nat) (v : List Nat) : updL f k v k = v := by
  simp [updL]

theorem updL_other (f : Nat → List Nat) (k : Nat) (v : List Nat) (k' : Nat)
    (h : k' ≠ k) : updL f k v k' = f k' := by
  simp [updL, h]

theorem updB_self (f : Nat → Bool) (k : Nat) (v : Bool) : updB f k v k = v := by
  simp [updB]

theorem updB_other (f : Nat → Bool) (k : Nat) (v : Bool) (k' : Nat)
    (h : k' ≠ k) : updB f k v k' = f k' := by
  simp [updB, h]

theorem step_inbound_some (tok : Nat → String) (s : Engine) (sid p k : Nat)
    (h : inboundTarget s sid = some k) :
    step tok s (Ev.inbound sid p)
      = { s with queues := updL s.queues k (s.queues k ++ [p]) } := by
  simp only [step, h]

theorem step_inbound_none (tok : Nat → String) (s : Engine) (sid p : Nat)
    (h : inboundTarget s sid = none) :
    step tok s (Ev.inbound sid p) = s := by
  simp only [step, h]

theorem step_pull_nil (tok : Nat → String) (s : Engine) (k : Nat)
    (h : s.queues k = []) :
    step tok s (Ev.pull k) = s := by
  simp only [step, h]

theorem step_pull_cons (tok : Nat → String) (s : Engine) (k p : Nat)
    (rest : List Nat) (h : s.queues k = p :: rest) :
    step tok s (Ev.pull k)
      = { s with queues := updL s.queues k rest
                 delivered := updL s.delivered k (s.delivered k ++ [p]) } := by
  simp only [step, h]

theorem step_inbound_fields (tok : Nat → String) (s : Engine) (sid p : Nat) :
    (step tok s (Ev.inbound sid p)).conn = s.conn ∧
    (step tok s (Ev.inbound sid p)).active = s.active ∧
    (step tok s (Ev.inbound sid p)).closedQ = s.closedQ ∧
    (step tok s (Ev.inbound sid p)).delivered = s.delivered := by
  cases h : inboundTarget s sid with
  | some k => rw [step_inbound_some tok s sid p k h]; exact ⟨rfl, rfl, rfl, rfl⟩
  | none => rw [step_inbound_none tok s sid p h]; exact ⟨rfl, rfl, rfl, rfl⟩

theorem inboundTarget_congr (s s' : Engine) (sid : Nat)
    (hc : s'.conn = s.conn) (ha : s'.active = s.active)
    (hq : s'.closedQ = s.closedQ) :
    inboundTarget s' sid = inboundTarget s sid := by
  unfold inboundTarget
  rw [hc, ha, hq]

theorem run_preserve (tok : Nat → String) (P : Engine → Prop)
    (h : ∀ s e, P s → P (step tok s e)) :
    ∀ (es : List Ev) (s : Engine), P s → P (run tok s es)
  | [], _, hs => hs
  | e :: es, s, hs => run_preserve tok P h es (step tok s e) (h s e hs)

@[simp]
theorem countInit_nil : countInit [] = 0 := rfl

@[simp]
theorem countInit_append (l1 l2 : List Frame) :
    countInit (l1 ++ l2) = countInit l1 + countInit l2 := by
  simp [countInit, List.filter_append]

@[simp]
theorem countInit_init_single (t : String) :
    countInit [Frame.connectionInit t] = 1 := rfl

@[simp]
theorem countInit_sub_single (sid k : Nat) :
    countInit [Frame.subscribe sid k] = 0 := rfl

@[simp]
theorem countInit_unsub_single (sid : Nat) :
    countInit [Frame.unsubscribe sid] = 0 := rfl

@[simp]
theorem replay_no_init (g : Nat) : ∀ (n : Nat) (rs : List SubscriptionRequest),
    countInit (replay g n rs).2 = 0
  | _, [] => rfl
  | n, r :: rs => by
      have ih := replay_no_init g (n + 1) rs
      simp only [replay]
      simpa [countInit, List.filter_cons, isInitFrame] using ih

theorem step_physLinks (tok : Nat → String) (s : Engine) (e : Ev)
    (h : s.physLinks ≤ 1) : (step tok s e).physLinks ≤ 1 := by
  cases e <;> simp only [step] <;> (repeat' split) <;> simp_all

theorem step_countInit_attempt (tok : Nat → String) (s : Engine) (e : Ev)
    (h : countInit s.sent = s.attempt) :
    countInit (step tok s e).sent = (step tok s e).attempt := by
  cases e <;> simp only [step] <;> (repeat' split) <;> simp_all

theorem step_addReq_noHandshake (tok : Nat → String) (s : Engine)
    (r : SubscriptionRequest) :
    (step tok s (Ev.addReq r)).physLinks = s.physLinks ∧
    countInit (step tok s (Ev.addReq r)).sent = countInit s.sent := by
  simp only [step]
  repeat' split
  all_goals simp_all

theorem step_cancel_noHandshake (tok : Nat → String) (s : Engine) (k : Nat) :
    (step tok s (Ev.cancel k)).physLinks = s.physLinks ∧
    countInit (step tok s (Ev.cancel k)).sent = countInit s.sent := by
  simp only [step]
  repeat' split
  all_goals simp_all

/-- C1: logical subscriptions are multiplexed onto a single shared physical
connection.  In every reachable engine state at most one physical link is
open; registering or cancelling a subscription never opens a link and
never sends a ConnectionInit handshake frame; and in the example client
the one monitor's `gql` client is built over the monitor's single
transport, so all three logical subscriptions share it. -/
theorem claim_C1_single_connection (tok : Nat → String) :
    (∀ es : List Ev, (run tok initState es).physLinks ≤ 1) ∧
    (∀ (s : Engine) (r : SubscriptionRequest),
        (step tok s (Ev.addReq r)).physLinks = s.physLinks ∧
        countInit (step tok s (Ev.addReq r)).sent = countInit s.sent) ∧
    (∀ (s : Engine) (k : Nat),
        (step tok s (Ev.cancel k)).physLinks = s.physLinks ∧
        countInit (step tok s (Ev.cancel k)).sent = countInit s.sent) ∧
    (∀ u t : String, (IncidentMonitor.mkMonitor u t).client.transport
        = (IncidentMonitor.mkMonitor u t).transport) :=
  ⟨fun es => run_preserve tok (fun s => s.physLinks ≤ 1)
      (fun s e h => step_physLinks tok s e h) es initState (Nat.zero_le 1),
   fun s r => step_addReq_noHandshake tok s r,
   fun s k => step_cancel_noHandshake tok s k,
   fun _ _ => rfl⟩

/-- C8: the credential provider is consulted once per handshake attempt.
Over every run, the number of ConnectionInit frames ever sent equals the
number of handshake attempts made; and the handshake of attempt `n + 1`
(a successful open while Connecting) sends exactly one ConnectionInit
frame carrying `tok (n + 1)`, the credential current at that attempt, so
an externally refreshed token takes effect on the next reconnect. -/
theorem claim_C8_token_per_attempt (tok : Nat → String) :
    (∀ es : List Ev,
        countInit (run tok initState es).sent = (run tok initState es).attempt) ∧
    (∀ s : Engine, s.conn = ConnState.Connecting →
        (step tok s Ev.openOk).sent
          = s.sent ++ [Frame.connectionInit (tok (s.attempt + 1))] ∧
        (step tok s Ev.openOk).attempt = s.attempt + 1) := by
  constructor
  · intro es
    exact run_preserve tok (fun s => countInit s.sent = s.attempt)
      (fun s e h => step_countInit_attempt tok s e h) es initState rfl
  · intro s h
    simp only [step, h]
    exact ⟨rfl, rfl⟩

/-- Concrete Ready state with request 1 active (server id 0, generation 1). -/
def sReady1 : Engine :=
  run tok0 initState [Ev.addReq req1, Ev.connect, Ev.openOk, Ev.ack]

/-- Concrete Ready state with requests 1 and 2 active (server ids 0 and 1). -/
def sReady2 : Engine :=
  run tok0 initState [Ev.addReq req1, Ev.addReq req2, Ev.connect, Ev.openOk, Ev.ack]

/-- Concrete state of generation 2 whose id log still holds server id 0 from
generation 1. -/
def sStale : Engine :=
  run tok0 initState [Ev.addReq req1, Ev.connect, Ev.openOk, Ev.ack,
    Ev.transportFail, Ev.drained, Ev.connect, Ev.openOk, Ev.ack]

theorem step_subError_only_errFrame (tok : Nat → String) (s : Engine) (e : Ev)
    (k : Nat) (h : (step tok s e).subError k = true) :
    s.subError k = true ∨ ∃ sid, e = Ev.errFrame sid := by
  cases e with
  | errFrame sid => exact Or.inr ⟨sid, rfl⟩
  | addReq r =>
      left
      simp only [step] at h
      split at h
      · exact h
      · split at h <;> (simp only [updB] at h; split at h) <;> simp_all
  | _ =>
      left
      simp only [step] at h
      repeat' split at h
      all_goals exact h

theorem step_errFrame_surfaces (tok : Nat → String) (s : Engine) (sid : Nat)
    (a : ActiveSubscription) (hc : s.conn = ConnState.Ready)
    (hf : s.active.find? (fun b => b.serverId == sid) = some a) :
    (step tok s (Ev.errFrame sid)).subError a.key = true := by
  simp only [step, hc, hf, if_true]
  simp [updB]

/-- C6: transport-level failures (connection open, send, or receive
failure) are handled entirely inside the connection lifecycle: an open
failure while Connecting and a handshake failure move to BackoffWait, a
transport failure while Ready moves to Draining, and none of them touch
any subscription's delivery queue, delivered list, closed marker or error
marker.  A subscription's error marker can only ever be set by a server
Error frame for a specific id, and such a frame does set it on the
targeted Handle. -/
theorem claim_C6_transport_errors_contained (tok : Nat → String) :
    (∀ s : Engine,
        (step tok s Ev.transportFail).queues = s.queues ∧
        (step tok s Ev.transportFail).delivered = s.delivered ∧
        (step tok s Ev.transportFail).subError = s.subError ∧
        (step tok s Ev.transportFail).closedQ = s.closedQ ∧
        (s.conn = ConnState.Ready →
          (step tok s Ev.transportFail).conn = ConnState.Draining)) ∧
    (∀ s : Engine,
        (step tok s Ev.openFail).queues = s.queues ∧
        (step tok s Ev.openFail).delivered = s.delivered ∧
        (step tok s Ev.openFail).subError = s.subError ∧
        (step tok s Ev.openFail).closedQ = s.closedQ ∧
        (s.conn = ConnState.Connecting →
          (step tok s Ev.openFail).conn = ConnState.BackoffWait)) ∧
    (∀ s : Engine,
        (step tok s Ev.handshakeFail).queues = s.queues ∧
        (step tok s Ev.handshakeFail).delivered = s.delivered ∧
        (step tok s Ev.handshakeFail).subError = s.subError ∧
        (step tok s Ev.handshakeFail).closedQ = s.closedQ ∧
        (s.conn = ConnState.Handshaking →
          (step tok s Ev.handshakeFail).conn = ConnState.BackoffWait)) ∧
    (∀ (s : Engine) (e : Ev) (k : Nat),
        (step tok s e).subError k = true →
        s.subError k = true ∨ ∃ sid, e = Ev.errFrame sid) ∧
    (∀ (s : Engine) (sid : Nat) (a : ActiveSubscription),
        s.conn = ConnState.Ready →
        s.active.find? (fun b => b.serverId == sid) = some a →
        (step tok s (Ev.errFrame sid)).subError a.key = true) := by
  refine ⟨fun s => ?_, fun s => ?_, fun s => ?_,
    fun s e k h => step_subError_only_errFrame tok s e k h,
    fun s sid a hc hf => step_errFrame_surfaces tok s sid a hc hf⟩
  all_goals simp only [step]
  all_goals split <;> simp_all

/-- Witness for C6 at concrete inputs: a transport failure in the concrete
Ready state drains the connection without touching subscription state, and
a server Error frame for server id 0 reaches exactly the Handle of key 1. -/
theorem claim_C6_transport_errors_contained_witness :
    ((step tok0 sReady1 Ev.transportFail).conn = ConnState.Draining ∧
      (step tok0 sReady1 Ev.transportFail).subError = sReady1.subError) ∧
    (sReady1.subError 1 = true ∨ ∃ sid, Ev.errFrame 0 = Ev.errFrame sid) ∧
    (step tok0 sReady1 (Ev.errFrame 0)).subError
        (ActiveSubscription.mk 1 0 1).key = true :=
  ⟨⟨((claim_C6_transport_errors_contained tok0).1 sReady1).2.2.2.2 (by decide),
    ((claim_C6_transport_errors_contained tok0).1 sReady1).2.2.1⟩,
   (claim_C6_transport_errors_contained tok0).2.2.2.1 sReady1 (Ev.errFrame 0) 1
     (by decide),
   (claim_C6_transport_errors_contained tok0).2.2.2.2 sReady1 0
     (ActiveSubscription.mk 1 0 1) (by decide) (by decide)⟩

theorem filter_idem {α : Type} (p : α → Bool) (l : List α) :
    (l.filter p).filter p = l.filter p := by
  induction l with
  | nil => rfl
  | cons a l ih => cases h : p a <;> simp [List.filter_cons, h, ih]

theorem find?_filter_key_none (k : Nat) (l : List ActiveSubscription) :
    (l.filter (fun b => b.key != k)).find? (fun a => a.key == k) = none := by
  rw [List.find?_eq_none]
  intro a ha
  have hm := List.mem_filter.mp ha
  simpa using hm.2

/-- C7: cancelling an already-cancelled subscription is a no-op — a second
cancel of the same key produces a state identical to the state after the
first cancel; in particular it appends no unsubscribe frame and raises no
error. -/
theorem claim_C7_cancel_idempotent (tok : Nat → String) (s : Engine) (k : Nat) :
    step tok (step tok s (Ev.cancel k)) (Ev.cancel k) = step tok s (Ev.cancel k) ∧
    (step tok (step tok s (Ev.cancel k)) (Ev.cancel k)).sent
      = (step tok s (Ev.cancel k)).sent := by
  have h : step tok (step tok s (Ev.cancel k)) (Ev.cancel k)
      = step tok s (Ev.cancel k) := by
    cases hf : s.active.find? (fun a => a.key == k) with
    | some a =>
        simp only [step, hf]
        rw [find?_filter_key_none]
        apply Engine.ext <;> simp [filter_idem]
        funext k'
        simp [updB]
    | none =>
        simp only [step, hf]
        apply Engine.ext <;> simp [filter_idem]
        funext k'
        simp [updB]
  exact ⟨h, congrArg Engine.sent h⟩

theorem replay_gen (g : Nat) : ∀ (n : Nat) (rs : List SubscriptionRequest)
    (a : ActiveSubscription), a ∈ (replay g n rs).1 → a.gen = g
  | _, [], a, h => absurd h (List.not_mem_nil a)
  | n, r :: rs, a, h => by
      simp only [replay, List.mem_cons] at h
      cases h with
      | inl h => rw [h]
      | inr h => exact replay_gen g (n + 1) rs a h

theorem replay_sid_lb (g : Nat) : ∀ (n : Nat) (rs : List SubscriptionRequest)
    (a : ActiveSubscription), a ∈ (replay g n rs).1 → n ≤ a.serverId
  | _, [], a, h => absurd h (List.not_mem_nil a)
  | n, r :: rs, a, h => by
      simp only [replay, List.mem_cons] at h
      cases h with
      | inl h => rw [h]
      | inr h => exact Nat.le_of_succ_le (replay_sid_lb g (n + 1) rs a h)

theorem replay_sid_ub (g : Nat) : ∀ (n : Nat) (rs : List SubscriptionRequest)
    (a : ActiveSubscription), a ∈ (replay g n rs).1 → a.serverId < n + rs.length
  | _, [], a, h => absurd h (List.not_mem_nil a)
  | n, r :: rs, a, h => by
      simp only [replay, List.mem_cons] at h
      cases h with
      | inl h => rw [h]; simp
      | inr h =>
          have := replay_sid_ub g (n + 1) rs a h
          simp only [List.length_cons]
          omega

/-- Modelled from the spec: the generation bookkeeping invariant (spec
section 3, I1/I3 context) — every ActiveSubscription belongs to the
current generation, all assigned server ids are below the allocation
counter, and the id log maps each active server id to its generation. -/
def GenInv (s : Engine) : Prop :=
  (∀ a ∈ s.active, a.gen = s.generation) ∧
  (∀ a ∈ s.active, a.serverId < s.nextServerId) ∧
  (∀ p ∈ s.idGen, p.1 < s.nextServerId) ∧
  (∀ a ∈ s.active, ∀ p ∈ s.idGen, p.1 = a.serverId → p.2 = a.gen)

theorem genInv_of_fields (s' s : Engine)
    (hg : s'.generation = s.generation) (hn : s'.nextServerId = s.nextServerId)
    (hi : s'.idGen = s.idGen) (ha : ∀ a ∈ s'.active, a ∈ s.active)
    (h : GenInv s) : GenInv s' := by
  obtain ⟨h1, h2, h3, h4⟩ := h
  refine ⟨fun a hma => ?_, fun a hma => ?_, fun p hp => ?_,
    fun a hma p hp hps => ?_⟩
  · rw [hg]; exact h1 a (ha a hma)
  · rw [hn]; exact h2 a (ha a hma)
  · rw [hn]; exact h3 p (hi ▸ hp)
  · exact h4 a (ha a hma) p (hi ▸ hp) hps

theorem ack_genInv (s : Engine) (h : GenInv s) :
    GenInv { s with
      conn := ConnState.Ready
      generation := s.generation + 1
      active := (replay (s.generation + 1) s.nextServerId s.registry).1
      idGen := s.idGen ++ (replay (s.generation + 1) s.nextServerId
        s.registry).1.map (fun a => (a.serverId, a.gen))
      nextServerId := s.nextServerId + s.registry.length
      sent := s.sent ++ (replay (s.generation + 1) s.nextServerId s.registry).2 } := by
  obtain ⟨h1, h2, h3, h4⟩ := h
  refine ⟨fun a ha => ?_, fun a ha => ?_, fun p hp => ?_,
    fun a ha p hp hps => ?_⟩
  · exact replay_gen _ _ _ a ha
  · exact replay_sid_ub _ _ _ a ha
  · rcases List.mem_append.mp hp with hp | hp
    · exact Nat.lt_of_lt_of_le (h3 p hp) (Nat.le_add_right _ _)
    · rcases List.mem_map.mp hp with ⟨b, hb, rfl⟩
      exact replay_sid_ub _ _ _ b hb
  · rcases List.mem_append.mp hp with hp | hp
    · exfalso
      have hlt := h3 p hp
      have hle := replay_sid_lb _ _ _ a ha
      omega
    · rcases List.mem_map.mp hp with ⟨b, hb, rfl⟩
      have hbg := replay_gen _ _ _ b hb
      have hag := replay_gen _ _ _ a ha
      simp [hbg, hag]

theorem addReq_genInv (s : Engine) (r : SubscriptionRequest) (h : GenInv s) :
    GenInv { s with
      registry := s.registry ++ [r]
      queues := updL s.queues r.key []
      delivered := updL s.delivered r.key []
      closedQ := updB s.closedQ r.key false
      subError := updB s.subError r.key false
      active := s.active ++ [⟨r.key, s.nextServerId, s.generation⟩]
      idGen := s.idGen ++ [(s.nextServerId, s.generation)]
      nextServerId := s.nextServerId + 1
      sent := s.sent ++ [Frame.subscribe s.nextServerId r.key] } := by
  obtain ⟨h1, h2, h3, h4⟩ := h
  refine ⟨fun a ha => ?_, fun a ha => ?_, fun p hp => ?_,
    fun a ha p hp hps => ?_⟩
  · rcases List.mem_append.mp ha with ha | ha
    · exact h1 a ha
    · simp only [List.mem_singleton] at ha
      rw [ha]
  · rcases List.mem_append.mp ha with ha | ha
    · exact Nat.lt_succ_of_lt (h2 a ha)
    · simp only [List.mem_singleton] at ha
      rw [ha]
      exact Nat.lt_succ_self _
  · rcases List.mem_append.mp hp with hp | hp
    · exact Nat.lt_succ_of_lt (h3 p hp)
    · simp only [List.mem_singleton] at hp
      rw [hp]
      exact Nat.lt_succ_self _
  · rcases List.mem_append.mp ha with ha | ha <;>
      rcases List.mem_append.mp hp with hp | hp
    · exact h4 a ha p hp hps
    · exfalso
      simp only [List.mem_singleton] at hp
      have hlt := h2 a ha
      rw [hp] at hps
      omega
    · exfalso
      simp only [List.mem_singleton] at ha
      have hlt := h3 p hp
      rw [ha] at hps
      simp at hps
      omega
    · simp only [List.mem_singleton] at ha hp
      rw [ha, hp]

theorem step_genInv (tok : Nat → String) (s : Engine) (e : Ev)
    (h : GenInv s) : GenInv (step tok s e) := by
  obtain ⟨h1, h2, h3, h4⟩ := h
  cases e with
  | connect =>
      simp only [step]
      split <;> exact ⟨h1, h2, h3, h4⟩
  | openOk =>
      simp only [step]
      split <;> exact ⟨h1, h2, h3, h4⟩
  | openFail =>
      simp only [step]
      split <;> exact ⟨h1, h2, h3, h4⟩
  | handshakeFail =>
      simp only [step]
      split <;> exact ⟨h1, h2, h3, h4⟩
  | transportFail =>
      simp only [step]
      split <;> exact ⟨h1, h2, h3, h4⟩
  | ack =>
      simp only [step]
      split
      · exact ack_genInv s ⟨h1, h2, h3, h4⟩
      · exact ⟨h1, h2, h3, h4⟩
  | drained =>
      simp only [step]
      split
      · exact ⟨fun a ha => absurd ha (List.not_mem_nil a),
          fun a ha => absurd ha (List.not_mem_nil a), h3,
          fun a ha => absurd ha (List.not_mem_nil a)⟩
      · exact ⟨h1, h2, h3, h4⟩
  | shutdown =>
      exact ⟨fun a ha => absurd ha (List.not_mem_nil a),
        fun a ha => absurd ha (List.not_mem_nil a), h3,
        fun a ha => absurd ha (List.not_mem_nil a)⟩
  | inbound sid p =>
      cases ht : inboundTarget s sid with
      | some k =>
          rw [step_inbound_some tok s sid p k ht]
          exact ⟨h1, h2, h3, h4⟩
      | none =>
          rw [step_inbound_none tok s sid p ht]
          exact ⟨h1, h2, h3, h4⟩
  | pull k =>
      cases hq : s.queues k with
      | nil =>
          rw [step_pull_nil tok s k hq]
          exact ⟨h1, h2, h3, h4⟩
      | cons p rest =>
          rw [step_pull_cons tok s k p rest hq]
          exact ⟨h1, h2, h3, h4⟩
  | errFrame sid =>
      simp only [step]
      split
      · split
        · exact genInv_of_fields _ s rfl rfl rfl
            (fun a ha => (List.mem_filter.mp ha).1) ⟨h1, h2, h3, h4⟩
        · exact ⟨h1, h2, h3, h4⟩
      · exact ⟨h1, h2, h3, h4⟩
  | completeFrame sid =>
      simp only [step]
      split
      · split
        · exact genInv_of_fields _ s rfl rfl rfl
            (fun a ha => (List.mem_filter.mp ha).1) ⟨h1, h2, h3, h4⟩
        · exact ⟨h1, h2, h3, h4⟩
      · exact ⟨h1, h2, h3, h4⟩
  | cancel k =>
      simp only [step]
      split
      · exact genInv_of_fields _ s rfl rfl rfl
          (fun a ha => (List.mem_filter.mp ha).1) ⟨h1, h2, h3, h4⟩
      · exact ⟨h1, h2, h3, h4⟩
  | addReq r =>
      simp only [step]
      split
      · exact ⟨h1, h2, h3, h4⟩
      · split
        · exact addReq_genInv s r ⟨h1, h2, h3, h4⟩
        · exact genInv_of_fields _ s rfl rfl rfl (fun a ha => ha)
            ⟨h1, h2, h3, h4⟩

theorem genInv_run (tok : Nat → String) (es : List Ev) :
    GenInv (run tok initState es) :=
  run_preserve tok GenInv (fun s e h => step_genInv tok s e h) es initState
    ⟨fun a ha => absurd ha (List.not_mem_nil a),
     fun a ha => absurd ha (List.not_mem_nil a),
     fun p hp => absurd hp (List.not_mem_nil p),
     fun a ha => absurd ha (List.not_mem_nil a)⟩

/-- C4: inbound events tagged with a server subscription id assigned in a
generation earlier than the current one are dropped and never delivered to
any Handle: in every reachable state, a Next, Error or Complete frame
carrying such a stale id leaves the state completely unchanged. -/
theorem claim_C4_stale_generation_dropped (tok : Nat → String) (es : List Ev)
    (sid g p : Nat)
    (hmem : (sid, g) ∈ (run tok initState es).idGen)
    (hlt : g < (run tok initState es).generation) :
    step tok (run tok initState es) (Ev.inbound sid p) = run tok initState es ∧
    step tok (run tok initState es) (Ev.errFrame sid) = run tok initState es ∧
    step tok (run tok initState es) (Ev.completeFrame sid) = run tok initState es := by
  obtain ⟨h1, h2, h3, h4⟩ := genInv_run tok es
  have hfind : (run tok initState es).active.find?
      (fun a => a.serverId == sid) = none := by
    rw [List.find?_eq_none]
    intro a ha hbeq
    have heq : a.serverId = sid := by simpa using hbeq
    have hgen := h4 a ha (sid, g) hmem heq.symm
    have hcur := h1 a ha
    simp only at hgen
    omega
  refine ⟨?_, ?_, ?_⟩
  · apply step_inbound_none
    by_cases hc : (run tok initState es).conn = ConnState.Ready <;>
      simp [inboundTarget, hc, hfind]
  · simp only [step, hfind]
    split <;> rfl
  · simp only [step, hfind]
    split <;> rfl

/-- Witness for C4: in the concrete generation-2 state, server id 0 (from
generation 1) is stale and an inbound Next frame for it is dropped. -/
theorem claim_C4_stale_generation_dropped_witness :
    ((0, 1) ∈ sStale.idGen ∧ 1 < sStale.generation) ∧
    step tok0 sStale (Ev.inbound 0 9) = sStale :=
  ⟨⟨by decide, by decide⟩,
   (claim_C4_stale_generation_dropped tok0
     [Ev.addReq req1, Ev.connect, Ev.openOk, Ev.ack,
      Ev.transportFail, Ev.drained, Ev.connect, Ev.openOk, Ev.ack]
     0 1 9 (by decide) (by decide)).1⟩

theorem replay_find (g : Nat) : ∀ (n : Nat) (rs : List SubscriptionRequest)
    (r : SubscriptionRequest), r ∈ rs →
    ∃ sid, n ≤ sid ∧
      (replay g n rs).1.find? (fun b => b.serverId == sid)
        = some ⟨r.key, sid, g⟩ ∧
      Frame.subscribe sid r.key ∈ (replay g n rs).2
  | _, [], r, h => absurd h (List.not_mem_nil r)
  | n, q :: rs, r, h => by
      rcases List.mem_cons.mp h with h | h
      · refine ⟨n, Nat.le_refl n, ?_, ?_⟩
        · simp only [replay]
          rw [List.find?_cons_of_pos _ (by simp)]
          rw [h]
        · simp only [replay]
          rw [h]
          exact List.mem_cons_self _ _
      · obtain ⟨sid, hle, hfind, hmem⟩ := replay_find g (n + 1) rs r h
        refine ⟨sid, Nat.le_of_succ_le hle, ?_, ?_⟩
        · simp only [replay]
          rw [List.find?_cons_of_neg _ (by simp; omega)]
          exact hfind
        · simp only [replay]
          exact List.mem_cons_of_mem _ hmem

/-- The reconnect cycle after a transport failure: drain, back off,
reconnect, handshake, acknowledge. -/
def reconnectSeq : List Ev :=
  [Ev.transportFail, Ev.drained, Ev.connect, Ev.openOk, Ev.ack]

/-- C3: after a transport failure, the engine reconnects and automatically
re-issues Subscribe for every request still in the registry: running the
reconnect cycle from any Ready state yields a Ready state in which the
request has an ActiveSubscription of the new generation, a Subscribe frame
for its key was sent, and inbound events for the new server id are again
routed to the request's delivery queue — without the consumer re-issuing
anything. -/
theorem claim_C3_auto_resubscribe (tok : Nat → String) (s : Engine)
    (r : SubscriptionRequest)
    (hconn : s.conn = ConnState.Ready)
    (hreg : r ∈ s.registry)
    (hopen : s.closedQ r.key = false) :
    ∃ sid,
      (run tok s reconnectSeq).conn = ConnState.Ready ∧
      ActiveSubscription.mk r.key sid (run tok s reconnectSeq).generation
        ∈ (run tok s reconnectSeq).active ∧
      Frame.subscribe sid r.key ∈ (run tok s reconnectSeq).sent ∧
      inboundTarget (run tok s reconnectSeq) sid = some r.key ∧
      ∀ p, (step tok (run tok s reconnectSeq) (Ev.inbound sid p)).queues r.key
        = (run tok s reconnectSeq).queues r.key ++ [p] := by
  have hrun : run tok s reconnectSeq
      = { s with
          conn := ConnState.Ready
          physLinks := 1
          generation := s.generation + 1
          attempt := s.attempt + 1
          active := (replay (s.generation + 1) s.nextServerId s.registry).1
          idGen := s.idGen ++ (replay (s.generation + 1) s.nextServerId
            s.registry).1.map (fun a => (a.serverId, a.gen))
          nextServerId := s.nextServerId + s.registry.length
          sent := (s.sent ++ [Frame.connectionInit (tok (s.attempt + 1))])
            ++ (replay (s.generation + 1) s.nextServerId s.registry).2 } := by
    simp [run, reconnectSeq, step, hconn]
  obtain ⟨sid, _, hfind, hmem⟩ :=
    replay_find (s.generation + 1) s.nextServerId s.registry r hreg
  have htgt : inboundTarget (run tok s reconnectSeq) sid = some r.key := by
    rw [hrun]
    unfold inboundTarget
    simp only [hfind, if_true]
    simp [hopen]
  refine ⟨sid, ?_, ?_, ?_, htgt, ?_⟩
  · rw [hrun]
  · rw [hrun]
    exact List.mem_of_find?_eq_some hfind
  · rw [hrun]
    exact List.mem_append.mpr (Or.inr hmem)
  · intro p
    rw [step_inbound_some tok _ sid p r.key htgt]
    exact updL_self _ _ _

/-- Witness for C3: from the concrete Ready state with request 1 active,
the reconnect cycle re-subscribes request 1 automatically. -/
theorem claim_C3_auto_resubscribe_witness :
    ∃ sid,
      (run tok0 sReady1 reconnectSeq).conn = ConnState.Ready ∧
      ActiveSubscription.mk req1.key sid (run tok0 sReady1 reconnectSeq).generation
        ∈ (run tok0 sReady1 reconnectSeq).active ∧
      Frame.subscribe sid req1.key ∈ (run tok0 sReady1 reconnectSeq).sent ∧
      inboundTarget (run tok0 sReady1 reconnectSeq) sid = some req1.key ∧
      ∀ p, (step tok0 (run tok0 sReady1 reconnectSeq) (Ev.inbound sid p)).queues req1.key
        = (run tok0 sReady1 reconnectSeq).queues req1.key ++ [p] :=
  claim_C3_auto_resubscribe tok0 sReady1 req1 (by decide) (by decide) (by decide)

theorem run_inbounds (tok : Nat → String) (sid k : Nat) (ps : List Nat) :
    ∀ (s : Engine), inboundTarget s sid = some k →
    (run tok s (ps.map (fun p => Ev.inbound sid p))).queues k
        = s.queues k ++ ps ∧
    (run tok s (ps.map (fun p => Ev.inbound sid p))).delivered = s.delivered ∧
    (run tok s (ps.map (fun p => Ev.inbound sid p))).conn = s.conn ∧
    (run tok s (ps.map (fun p => Ev.inbound sid p))).active = s.active ∧
    (run tok s (ps.map (fun p => Ev.inbound sid p))).closedQ = s.closedQ := by
  induction ps with
  | nil =>
      intro s _
      exact ⟨(List.append_nil _).symm, rfl, rfl, rfl, rfl⟩
  | cons p ps ih =>
      intro s ht
      have hstep := step_inbound_some tok s sid p k ht
      have hf := step_inbound_fields tok s sid p
      have ht1 : inboundTarget (step tok s (Ev.inbound sid p)) sid = some k := by
        rw [inboundTarget_congr s (step tok s (Ev.inbound sid p)) sid
          hf.1 hf.2.1 hf.2.2.1]
        exact ht
      obtain ⟨q1, d1, c1, a1, z1⟩ := ih (step tok s (Ev.inbound sid p)) ht1
      rw [List.map_cons, run_cons]
      refine ⟨?_, ?_, ?_, ?_, ?_⟩
      · rw [q1, hstep]
        simp [updL]
      · rw [d1, hf.2.2.2]
      · rw [c1, hf.1]
      · rw [a1, hf.2.1]
      · rw [z1, hf.2.2.1]

theorem run_pulls (tok : Nat → String) (k : Nat) (n : Nat) :
    ∀ s : Engine,
    (run tok s (List.replicate n (Ev.pull k))).delivered k
        = s.delivered k ++ (s.queues k).take n ∧
    (run tok s (List.replicate n (Ev.pull k))).queues k = (s.queues k).drop n ∧
    ∀ k', k' ≠ k → (run tok s (List.replicate n (Ev.pull k))).delivered k'
        = s.delivered k' := by
  induction n with
  | zero =>
      intro s
      simp [run]
  | succ n ih =>
      intro s
      rw [List.replicate_succ, run_cons]
      cases hq : s.queues k with
      | nil =>
          rw [step_pull_nil tok s k hq]
          obtain ⟨d1, q1, o1⟩ := ih s
          refine ⟨?_, ?_, o1⟩
          · rw [d1, hq]
            simp
          · rw [q1, hq]
            simp
      | cons p rest =>
          rw [step_pull_cons tok s k p rest hq]
          obtain ⟨d1, q1, o1⟩ := ih
            { s with queues := updL s.queues k rest
                     delivered := updL s.delivered k (s.delivered k ++ [p]) }
          refine ⟨?_, ?_, ?_⟩
          · rw [d1]
            simp [updL, hq]
          · rw [q1]
            simp [updL, hq]
          · intro k' hk'
            rw [o1 k' hk']
            simp [updL, hk']

/-- C2: a stalled consumer handler for one subscription never stalls
delivery to another.  In any schedule that contains no pull by
subscription `k1`'s handler (that handler is stalled indefinitely) the
full batch of events emitted for subscription `k2` is still delivered to
`k2`'s handler, leaving `k1`'s handler state untouched; and dispatching an
inbound frame never executes any handler (it never changes any delivered
list), which is the structural reason the read loop cannot be stalled by
consumer code. -/
theorem claim_C2_no_head_of_line_blocking (tok : Nat → String) (s : Engine)
    (k1 k2 sid g : Nat) (ps : List Nat)
    (hne : k1 ≠ k2)
    (hconn : s.conn = ConnState.Ready)
    (hfind : s.active.find? (fun a => a.serverId == sid)
      = some (ActiveSubscription.mk k2 sid g))
    (hclosed : s.closedQ k2 = false)
    (hq : s.queues k2 = []) :
    Ev.pull k1 ∉ ps.map (fun p => Ev.inbound sid p)
        ++ List.replicate ps.length (Ev.pull k2) ∧
    (run tok s (ps.map (fun p => Ev.inbound sid p)
        ++ List.replicate ps.length (Ev.pull k2))).delivered k2
      = s.delivered k2 ++ ps ∧
    (run tok s (ps.map (fun p => Ev.inbound sid p)
        ++ List.replicate ps.length (Ev.pull k2))).delivered k1
      = s.delivered k1 ∧
    (∀ (s' : Engine) (sid' p : Nat),
        (step tok s' (Ev.inbound sid' p)).delivered = s'.delivered) := by
  have htgt : inboundTarget s sid = some k2 := by
    unfold inboundTarget
    simp [hconn, hfind, hclosed]
  obtain ⟨q1, d1, _, _, _⟩ := run_inbounds tok sid k2 ps s htgt
  obtain ⟨d2, _, o2⟩ := run_pulls tok k2 ps.length
    (run tok s (ps.map (fun p => Ev.inbound sid p)))
  refine ⟨?_, ?_, ?_, fun s' sid' p => (step_inbound_fields tok s' sid' p).2.2.2⟩
  · intro hmem
    rcases List.mem_append.mp hmem with hmem | hmem
    · rcases List.mem_map.mp hmem with ⟨p, _, hp⟩
      exact Ev.noConfusion hp
    · have hrep := List.eq_of_mem_replicate hmem
      injection hrep with hk
      exact hne hk
  · rw [run_append, d2, d1, q1, hq]
    simp
  · rw [run_append, o2 k1 hne, d1]

/-- Witness for C2: in the concrete Ready state with subscriptions 1 and 2
active, a schedule in which handler 1 never pulls still delivers the three
events emitted for subscription 2 (server id 1) to handler 2 in full. -/
theorem claim_C2_no_head_of_line_blocking_witness :
    Ev.pull 1 ∉ [10, 20, 30].map (fun p => Ev.inbound 1 p)
        ++ List.replicate ([10, 20, 30] : List Nat).length (Ev.pull 2) ∧
    (run tok0 sReady2 ([10, 20, 30].map (fun p => Ev.inbound 1 p)
        ++ List.replicate ([10, 20, 30] : List Nat).length (Ev.pull 2))).delivered 2
      = sReady2.delivered 2 ++ [10, 20, 30] ∧
    (run tok0 sReady2 ([10, 20, 30].map (fun p => Ev.inbound 1 p)
        ++ List.replicate ([10, 20, 30] : List Nat).length (Ev.pull 2))).delivered 1
      = sReady2.delivered 1 ∧
    (∀ (s' : Engine) (sid' p : Nat),
        (step tok0 s' (Ev.inbound sid' p)).delivered = s'.delivered) :=
  claim_C2_no_head_of_line_blocking tok0 sReady2 1 2 1 1 [10, 20, 30]
    (by decide) (by decide) (by decide) (by decide) (by decide)

theorem dispatch_order (tok : Nat → String) (k : Nat) (es : List Ev) :
    ∀ s : Engine, (∀ e ∈ es, isDispatchEv e = true) →
    ∃ t, (run tok s es).delivered k = s.delivered k ++ t ∧
      (run tok s es).delivered k ++ (run tok s es).queues k
        = (s.delivered k ++ s.queues k) ++ routedTo tok s k es := by
  induction es with
  | nil =>
      intro s _
      exact ⟨[], by simp [run], by simp [run, routedTo]⟩
  | cons e es ih =>
      intro s hd
      have hde : isDispatchEv e = true := hd e (List.mem_cons_self e es)
      have hdes : ∀ e' ∈ es, isDispatchEv e' = true :=
        fun e' h' => hd e' (List.mem_cons_of_mem e h')
      rw [run_cons]
      cases e with
      | inbound sid p =>
          obtain ⟨t, h1, h2⟩ := ih (step tok s (Ev.inbound sid p)) hdes
          have hdel := (step_inbound_fields tok s sid p).2.2.2
          simp only [routedTo]
          cases ht : inboundTarget s sid with
          | none =>
              refine ⟨t, ?_, ?_⟩
              · rw [h1, step_inbound_none tok s sid p ht]
              · rw [h2, step_inbound_none tok s sid p ht]
                simp [ht]
          | some k0 =>
              by_cases hk : k0 = k
              · subst hk
                refine ⟨t, ?_, ?_⟩
                · rw [h1, hdel]
                · rw [h2, hdel]
                  rw [step_inbound_some tok s sid p k0 ht]
                  simp [ht, updL]
              · refine ⟨t, ?_, ?_⟩
                · rw [h1, hdel]
                · rw [h2, hdel]
                  rw [step_inbound_some tok s sid p k0 ht]
                  have hkk : ¬ (k = k0) := fun h => hk h.symm
                  simp [ht, updL, hk, hkk]
      | pull k0 =>
          obtain ⟨t, h1, h2⟩ := ih (step tok s (Ev.pull k0)) hdes
          simp only [routedTo]
          cases hq : s.queues k0 with
          | nil =>
              refine ⟨t, ?_, ?_⟩
              · rw [h1, step_pull_nil tok s k0 hq]
              · rw [h2, step_pull_nil tok s k0 hq]
                simp
          | cons p rest =>
              by_cases hk : k0 = k
              · subst hk
                refine ⟨p :: t, ?_, ?_⟩
                · rw [h1, step_pull_cons tok s k0 p rest hq]
                  simp [updL]
                · rw [h2, step_pull_cons tok s k0 p rest hq]
                  simp [updL, hq]
              · have hkk : ¬ (k = k0) := fun h => hk h.symm
                refine ⟨t, ?_, ?_⟩
                · rw [h1, step_pull_cons tok s k0 p rest hq]
                  simp [updL, hkk]
                · rw [h2, step_pull_cons tok s k0 p rest hq]
                  simp [updL, hkk]
      | _ => simp [isDispatchEv] at hde

theorem routedTo_inbounds (tok : Nat → String) (sid k : Nat) (ps : List Nat) :
    ∀ s : Engine, inboundTarget s sid = some k →
    routedTo tok s k (ps.map (fun p => Ev.inbound sid p)) = ps := by
  induction ps with
  | nil =>
      intro s _
      rfl
  | cons p ps ih =>
      intro s ht
      have hf := step_inbound_fields tok s sid p
      have ht1 : inboundTarget (step tok s (Ev.inbound sid p)) sid = some k := by
        rw [inboundTarget_congr s (step tok s (Ev.inbound sid p)) sid
          hf.1 hf.2.1 hf.2.2.1]
        exact ht
      simp only [List.map_cons, routedTo]
      rw [ih (step tok s (Ev.inbound sid p)) ht1]
      simp [ht]

/-- C5: per-subscription delivery preserves server-emission order,
regardless of dispatch scheduling.  Under every dispatch schedule
(arbitrary interleaving of inbound frames and handler pulls), the list a
handler has received, followed by its still-queued events, extends the
initial contents by exactly the payloads routed to that subscription in
routing order — so the handler receives a prefix of the emission order and
never sees events out of order; and for a block of events E1, E2, ...
emitted for one server id, the routed order is exactly that emission
order. -/
theorem claim_C5_per_subscription_order (tok : Nat → String) (s : Engine)
    (k : Nat) (es : List Ev)
    (hd : ∀ e ∈ es, isDispatchEv e = true) :
    (∃ t, (run tok s es).delivered k = s.delivered k ++ t ∧
      (run tok s es).delivered k ++ (run tok s es).queues k
        = (s.delivered k ++ s.queues k) ++ routedTo tok s k es) ∧
    (∀ sid (ps : List Nat), inboundTarget s sid = some k →
        routedTo tok s k (ps.map (fun p => Ev.inbound sid p)) = ps) :=
  ⟨dispatch_order tok k es s hd,
   fun sid ps ht => routedTo_inbounds tok sid k ps s ht⟩

/-- Witness for C5: a concrete interleaved schedule over the Ready state
with subscriptions 1 and 2 active. -/
theorem claim_C5_per_subscription_order_witness :
    (∃ t, (run tok0 sReady2 [Ev.inbound 1 10, Ev.pull 2, Ev.inbound 1 20,
        Ev.inbound 1 30, Ev.pull 2, Ev.pull 2]).delivered 2
        = sReady2.delivered 2 ++ t ∧
      (run tok0 sReady2 [Ev.inbound 1 10, Ev.pull 2, Ev.inbound 1 20,
        Ev.inbound 1 30, Ev.pull 2, Ev.pull 2]).delivered 2
        ++ (run tok0 sReady2 [Ev.inbound 1 10, Ev.pull 2, Ev.inbound 1 20,
          Ev.inbound 1 30, Ev.pull 2, Ev.pull 2]).queues 2
        = (sReady2.delivered 2 ++ sReady2.queues 2)
          ++ routedTo tok0 sReady2 2 [Ev.inbound 1 10, Ev.pull 2, Ev.inbound 1 20,
            Ev.inbound 1 30, Ev.pull 2, Ev.pull 2]) ∧
    (∀ sid (ps : List Nat), inboundTarget sReady2 sid = some 2 →
        routedTo tok0 sReady2 2 (ps.map (fun p => Ev.inbound sid p)) = ps) :=
  claim_C5_per_subscription_order tok0 sReady2 2
    [Ev.inbound 1 10, Ev.pull 2, Ev.inbound 1 20,
     Ev.inbound 1 30, Ev.pull 2, Ev.pull 2] (by decide)

/-- Witness for C8 at a concrete run: after one connect, the successful
open of attempt 1 sends exactly one ConnectionInit frame carrying the
token current at attempt 1. -/
theorem claim_C8_token_per_attempt_witness :
    countInit (run tok0 initState [Ev.connect, Ev.openOk]).sent
      = (run tok0 initState [Ev.connect, Ev.openOk]).attempt ∧
    (step tok0 (run tok0 initState [Ev.connect]) Ev.openOk).sent
      = (run tok0 initState [Ev.connect]).sent
        ++ [Frame.connectionInit
          (tok0 ((run tok0 initState [Ev.connect]).attempt + 1))] :=
  ⟨(claim_C8_token_per_attempt tok0).1 [Ev.connect, Ev.openOk],
   ((claim_C8_token_per_attempt tok0).2 (run tok0 initState [Ev.connect])
     (by decide)).1⟩

/-- C9: stopping the monitor is deferred, not immediate.  `stop` only
clears the `running` flag; the subscription loop checks the flag only
after delivering an event, so an event arriving once the flag is already
false is still handed to the handler before the loop breaks; a loop whose
stream yields nothing further never performs the check and so never
terminates through `stop`; and whenever a loop does terminate through the
flag check, at least one event was delivered first. -/
theorem claim_C9_deferred_stop :
    (∀ m : IncidentMonitor, IncidentMonitor.stop m = { m with running := false }) ∧
    (∀ p : Nat, subscriptionLoop [(p, false)] = ([p], true)) ∧
    subscriptionLoop [] = ([], false) ∧
    (∀ tr : List (Nat × Bool), (subscriptionLoop tr).2 = true →
        (subscriptionLoop tr).1 ≠ []) := by
  refine ⟨fun m => rfl, fun p => rfl, rfl, ?_⟩
  intro tr h
  cases tr with
  | nil => simp [subscriptionLoop] at h
  | cons x rest =>
      obtain ⟨p, flag⟩ := x
      cases flag <;> simp [subscriptionLoop]

/-- Witness for C9: the loop fed one event with the flag already cleared
terminates through the flag check and has delivered that event. -/
theorem claim_C9_deferred_stop_witness :
    (subscriptionLoop [(5, false)]).2 = true ∧
    (subscriptionLoop [(5, false)]).1 ≠ [] :=
  ⟨by decide, claim_C9_deferred_stop.2.2.2 [(5, false)] (by decide)⟩

/-- C10: every subscribe coroutine catches any exception raised during its
subscription session, logs it, and returns normally; no exception
propagates to the caller, and `main`'s gather (with
`return_exceptions=True`) therefore returns a normal outcome for all three
subscriptions whatever their session bodies do, so a failure in one
subscription never cancels the others. -/
theorem claim_C10_exceptions_contained :
    (∀ body : Except String Unit, ∃ log : List String,
        subscribe_to_critical_incidents body = Except.ok log) ∧
    (∀ e, subscribe_to_critical_incidents (Except.error e)
        = Except.ok ["Critical incidents subscription error: " ++ e]) ∧
    (∀ e, subscribe_to_incident_updates (Except.error e)
        = Except.ok ["Incident updates subscription error: " ++ e]) ∧
    (∀ e, subscribe_to_new_incidents (Except.error e)
        = Except.ok ["New incidents subscription error: " ++ e]) ∧
    (∀ s1 s2 s3 : Except String Unit, ∃ l1 l2 l3,
        mainGather s1 s2 s3
          = Except.ok [Except.ok l1, Except.ok l2, Except.ok l3]) := by
  refine ⟨?_, fun e => rfl, fun e => rfl, fun e => rfl, ?_⟩
  · intro body
    cases body with
    | ok u => exact ⟨[], rfl⟩
    | error e => exact ⟨["Critical incidents subscription error: " ++ e], rfl⟩
  · intro s1 s2 s3
    cases s1 <;> cases s2 <;> cases s3 <;> exact ⟨_, _, _, rfl⟩
